import Mathlib

/-!
Shallow embedding of the FaceSorter identity-matching and verified-relocation
pipeline, translated from the Python sources:

* `facesorter/face_recognition/matching.py` — `compare_face_encodings_vectorized`,
  `find_best_match` (distances, candidacy, age adjustment, priority filtering);
* `facesorter/image/sorting.py` — `process_image_batch` (move/copy relocation with
  checksum verification), statistics aggregation and the end-of-run reconciliation
  in `sort_images`;
* `facesorter/utils/file_ops.py` — `is_image_file`, `generate_unique_filename`;
* `facesorter/utils/caching.py` — `load_cache`.

Modelling conventions: Python floats are modelled as rationals; numpy distance
arrays as `List ℚ` with the externally supplied `face_recognition.face_distance`
abstracted to a distance function parameter; the filesystem as
`String → Option (List Nat)` (path to byte content); MD5 as an arbitrary function
of the content; exceptions of fallible OS calls as explicit outcome parameters
(`CopyAttempt`, `MoveEnv`) or explicit states (`CacheFileState`).
-/

namespace FaceSorter

/-- Minimum of a list of rationals, `none` on the empty list; this is numpy's
`.min()` as used on the (nonempty) `face_distances` array. -/
def listMin : List ℚ → Option ℚ
  | [] => none
  | x :: xs => some (xs.foldl min x)

/-- From `matching.py` lines 9-36: vectorized comparison.  Given the external
distance function `fd`, returns the boolean match mask `face_distances <= tolerance`
together with the distances themselves; `([], [])` when there are no known
encodings. -/
def compare_face_encodings_vectorized {E : Type} (fd : E → E → ℚ) (known_encodings : List E)
    (unknown_encoding : E) (tolerance : ℚ) : List Bool × List ℚ :=
  if known_encodings.isEmpty then ([], [])
  else
    let face_distances := known_encodings.map (fun k => fd k unknown_encoding)
    (face_distances.map (fun d => decide (d ≤ tolerance)), face_distances)

/-- From `matching.py` lines 86-107: the age-based confidence adjustment applied to
one candidate.  `valid_ages = range(max(0, person_age - effective_tolerance),
person_age + effective_tolerance + 1)`; if `person_age not in valid_ages` the
confidence is multiplied by `0.5`. -/
def age_adjusted_confidence (confidence : ℚ) (person_age : Int) (age_tolerance : Int) : ℚ :=
  let effective_tolerance := if person_age < 10 then age_tolerance + 2 else age_tolerance
  let lo := max 0 (person_age - effective_tolerance)
  let hi := person_age + effective_tolerance + 1
  if lo ≤ person_age ∧ person_age < hi then confidence else confidence * (1 / 2)

/-- The inputs of `find_best_match` (`matching.py` lines 38-52).  `fd` abstracts the
external `face_recognition.face_distance`; `photo_date_found` is whether
`extract_date_from_image` returned a (truthy) date; `calcAge` abstracts
`calculate_age(birthdate, photo_date)` for the photo date in question, `none`
standing for its `None` result. -/
structure MatchCtx (E : Type) where
  fd : E → E → ℚ
  known_face_encodings : String → List E
  known_face_names : List String
  tolerance : ℚ
  priority_list : List String
  age_based_matching : Bool
  photo_date_found : Bool
  birthdates : List (String × String)
  calcAge : String → Option Int
  age_tolerance : Int

/-- Whether a person passes the candidacy test `any(matches)` of `matching.py`
line 75, on the mask returned by `compare_face_encodings_vectorized`. -/
def is_candidate {E : Type} (ctx : MatchCtx E) (face_encoding : E) (person_name : String) :
    Bool :=
  ((compare_face_encodings_vectorized ctx.fd (ctx.known_face_encodings person_name)
    face_encoding ctx.tolerance).1.any id)

/-- The `face_distances` array for one person, i.e. the second component returned
by `compare_face_encodings_vectorized`. -/
def face_dists {E : Type} (ctx : MatchCtx E) (face_encoding : E) (person_name : String) :
    List ℚ :=
  (compare_face_encodings_vectorized ctx.fd (ctx.known_face_encodings person_name)
    face_encoding ctx.tolerance).2

/-- From `matching.py` lines 79-107: the guard chain
`if age_based_matching and photo_date and birthdates and person_name in birthdates`,
then `birthdate = birthdates.get(person_name)`, `if birthdate:`, then
`calculate_age`; when every guard passes and the age is known, the confidence is
put through `age_adjusted_confidence`, otherwise it is untouched. -/
def apply_age_adjustment {E : Type} (ctx : MatchCtx E) (person_name : String)
    (confidence : ℚ) : ℚ :=
  if ctx.age_based_matching && ctx.photo_date_found && !ctx.birthdates.isEmpty
      && (ctx.birthdates.lookup person_name).isSome then
    match ctx.birthdates.lookup person_name with
    | none => confidence
    | some birthdate =>
      if birthdate = "" then confidence
      else
        match ctx.calcAge birthdate with
        | none => confidence
        | some person_age => age_adjusted_confidence confidence person_age ctx.age_tolerance
  else confidence

/-- From `matching.py` lines 65-109, the per-person body of the loop: `some c` when
`any(matches)` holds (the person is recorded in `found_persons` with confidence
`c`), `none` otherwise.  The confidence starts at `1 - face_distances.min()` and is
then subjected to the age adjustment. -/
def person_confidence {E : Type} (ctx : MatchCtx E) (face_encoding : E)
    (person_name : String) : Option ℚ :=
  if is_candidate ctx face_encoding person_name then
    match listMin (face_dists ctx face_encoding person_name) with
    | none => none
    | some m => some (apply_age_adjustment ctx person_name (1 - m))
  else none

/-- The `found_persons` list accumulated by the loop of `matching.py` lines 65-109,
in enrollment order. -/
def found_persons {E : Type} (ctx : MatchCtx E) (face_encoding : E) : List (String × ℚ) :=
  ctx.known_face_names.filterMap (fun p =>
    (person_confidence ctx face_encoding p).map (fun c => (p, c)))

/-- The sort key of `matching.py` line 126:
`priority_list.index(x[0]) if x[0] in priority_list else len(priority_list)`. -/
def priority_key (priority_list : List String) (x : String × ℚ) : Nat :=
  if priority_list.contains x.1 then priority_list.indexOf x.1 else priority_list.length

/-- From `matching.py` lines 111-132: rank `found_persons` by confidence
(descending), then apply the priority list, if supplied, as a filter followed by a
re-sort on priority position; otherwise take the most confident entry.  Returns
`(None, 0)` when nothing survives. -/
def find_best_match {E : Type} (ctx : MatchCtx E) (face_encoding : E) : Option String × ℚ :=
  let fp := found_persons ctx face_encoding
  if fp.isEmpty then (none, 0)
  else
    let sorted_fp := fp.mergeSort (fun a b => decide (b.2 ≤ a.2))
    if ctx.priority_list.isEmpty then
      match sorted_fp with
      | [] => (none, 0)
      | x :: _ => (some x.1, x.2)
    else
      let priority_matches := sorted_fp.filter (fun x => ctx.priority_list.contains x.1)
      if priority_matches.isEmpty then (none, 0)
      else
        let pm := priority_matches.mergeSort
          (fun a b => decide (priority_key ctx.priority_list a ≤ priority_key ctx.priority_list b))
        match pm with
        | [] => (none, 0)
        | x :: _ => (some x.1, x.2)

/-! ## Relocation engine (`sorting.py` lines 236-402, `file_ops.py`) -/

/-- The filesystem, as a map from path to byte content (`none` = file absent). -/
def FS : Type := String → Option (List Nat)

/-- Point update of the filesystem. -/
def fsUpdate (fs : FS) (p : String) (v : Option (List Nat)) : FS :=
  fun q => if q = p then v else fs q

/-- Outcome of one `shutil.copy2(img_path, destination)` call: `dstAfter` is the
content found at the destination afterwards (`none` if nothing was written) and
`raised` is whether the call raised an exception.  The copy never modifies the
source file. -/
structure CopyAttempt where
  dstAfter : Option (List Nat)
  raised : Bool

/-- Environment of one move operation: the copy outcome, whether the
`try: os.remove(destination) except: pass` cleanup of a failed-verification copy
succeeds (its exception is swallowed, `sorting.py` lines 294-298 and 306-310), and
whether the final `os.remove(img_path)` of the verified original succeeds. -/
structure MoveEnv where
  copy : CopyAttempt
  removeDstOk : Bool
  removeOrigOk : Bool

/-- From `sorting.py` lines 242-342, the move branch of `process_image_batch`,
starting at Step 1 (the earlier existence/permission guards raise into the outer
`except`, which yields the same failed result with the filesystem unchanged):
compute the source checksum, copy, verify destination existence then size then
checksum against the pre-copy source checksum, and only then remove the original.
Size or checksum mismatch attempts to remove the fresh copy inside
`try/except: pass`, so a failed cleanup removal leaves the copy behind.  A failed
removal of the already-verified original is still reported as success.  Returns
the resulting filesystem and the appended result (`True` = moved, `False` =
failed). -/
def move_file_op (hash : List Nat → Nat) (img_path destination : String)
    (fs : FS) (env : MoveEnv) : FS × Bool :=
  match fs img_path with
  | none => (fs, false)
  | some src_content =>
    let source_checksum := hash src_content
    let fs1 := fsUpdate fs destination env.copy.dstAfter
    if env.copy.raised then (fs1, false)
    else
      match fs1 destination with
      | none => (fs1, false)
      | some dst_content =>
        match fs1 img_path with
        | none => (fs1, false)
        | some src_now =>
          if dst_content.length ≠ src_now.length then
            (if env.removeDstOk then fsUpdate fs1 destination none else fs1, false)
          else if hash dst_content ≠ source_checksum then
            (if env.removeDstOk then fsUpdate fs1 destination none else fs1, false)
          else if env.removeOrigOk then
            (fsUpdate fs1 img_path none, true)
          else (fs1, true)

/-- From `sorting.py` lines 343-377, the copy branch of `process_image_batch`:
`shutil.copy2` inside a `try`, reporting success when no exception was raised and
failure otherwise.  No post-copy verification is performed and no cleanup of the
destination happens on failure. -/
def copy_file_op (img_path destination : String) (fs : FS) (att : CopyAttempt) :
    FS × Bool :=
  let _ := img_path
  let fs1 := fsUpdate fs destination att.dstAfter
  if att.raised then (fs1, false) else (fs1, true)

/-! ## Statistics (`sorting.py` lines 577-663) -/

/-- The `stats` dictionary of `sort_images`. -/
structure RunStats where
  total_images : Nat
  recognized : Nat
  unrecognized : Nat
  errors : Nat
  person_counts : List (String × Nat)
deriving DecidableEq

/-- `stats["person_counts"][person] += 1` on the `defaultdict(int)`. -/
def bump_person_count : List (String × Nat) → String → List (String × Nat)
  | [], k => [(k, 1)]
  | (k', n) :: rest, k =>
    if k' = k then (k', n + 1) :: rest else (k', n) :: bump_person_count rest k

/-- From `sorting.py` lines 640-646: aggregation of one per-file result
`(success, person)` coming back from `process_image_batch`: success increments
`recognized` (and the person counter), otherwise `unrecognized` is incremented. -/
def update_stats_for_result (stats : RunStats) (result : Bool × Option String) : RunStats :=
  if result.1 then
    { stats with
      recognized := stats.recognized + 1
      person_counts :=
        match result.2 with
        | some person => bump_person_count stats.person_counts person
        | none => stats.person_counts }
  else
    { stats with unrecognized := stats.unrecognized + 1 }

/-- From `sorting.py` lines 658-663: the end-of-run reconciliation.  Returns the
final statistics together with whether the mismatch warning was emitted. -/
def finalize_stats (stats : RunStats) : RunStats × Bool :=
  let total_processed := stats.recognized + stats.unrecognized + stats.errors
  if total_processed ≠ stats.total_images then
    ({ stats with total_images := total_processed }, true)
  else (stats, false)

/-! ## Collision-safe naming (`file_ops.py` lines 56-106) -/

/-- `os.path.join(directory, filename)` for the simple directory/filename case. -/
def render_path (directory filename : String) : String := directory ++ "/" ++ filename

/-- `int(...)` on a string of decimal digits. -/
def nat_of_digits (ds : List Char) : Nat :=
  ds.foldl (fun n c => n * 10 + (c.toNat - 48)) 0

/-- The `re.search(r'_([0-9]+)$', base_name)` step of `generate_unique_filename`:
`some (stripped, n)` when the base name ends in an underscore followed by at least
one digit, where `stripped` is the base name with that suffix removed and `n` the
numeric value of the digits. -/
def strip_numeric_suffix (base_name : String) : Option (String × Nat) :=
  let rcs := base_name.toList.reverse
  let digits := rcs.takeWhile Char.isDigit
  let rest := rcs.dropWhile Char.isDigit
  if digits.isEmpty then none
  else
    match rest with
    | [] => none
    | c :: rest' =>
      if c = '_' then some (String.mk rest'.reverse, nat_of_digits digits.reverse)
      else none

/-- From `file_ops.py` lines 84-106, the suffix-search loop.  `ex` is
`os.path.exists`.  The Python loop tries `counter`, and when the candidate exists
falls back to the timestamp name once `counter + 1 > 10000`; here `fuel` carries
the remaining number of increments, so the caller passes `10000 - start_suffix`
(truncated subtraction), which reproduces that guard exactly. -/
def unique_name_loop (ex : String → Bool) (directory base_name extension timestamp : String) :
    Nat → Nat → String
  | counter, fuel =>
    let new_filename := base_name ++ "_" ++ toString counter ++ extension
    let new_path := render_path directory new_filename
    if ex new_path = false then new_path
    else
      match fuel with
      | 0 => render_path directory (base_name ++ "_" ++ timestamp ++ extension)
      | f + 1 => unique_name_loop ex directory base_name extension timestamp (counter + 1) f

/-- From `file_ops.py` lines 56-106: `generate_unique_filename(destination_path)`,
with the `dirname`/`basename`/`splitext` decomposition of the argument supplied as
components and the `time.strftime` timestamp as a parameter.  Returns the argument
itself when it does not exist, otherwise runs the numeric-suffix search (reusing an
existing `_<digits>` suffix as the starting counter). -/
def generate_unique_filename (ex : String → Bool) (timestamp : String)
    (directory base_name extension : String) : String :=
  let destination_path := render_path directory (base_name ++ extension)
  if ex destination_path = false then destination_path
  else
    match strip_numeric_suffix base_name with
    | some (b, n) => unique_name_loop ex directory b extension timestamp (n + 1) (10000 - (n + 1))
    | none => unique_name_loop ex directory base_name extension timestamp 1 (10000 - 1)

/-! ## Fingerprint cache (`caching.py` lines 10-32) -/

/-- A cached mapping of image fingerprints to match decisions `(success, person)`,
the shape stored by `process_image_batch`. -/
def Cache : Type := List (String × (Bool × Option String))

/-- The state of the cache file on disk: absent, present but truncated, present but
otherwise corrupt/unreadable (both of which make `np.load`/`.item()` raise), or
valid with parsed content. -/
inductive CacheFileState where
  | missing
  | truncated
  | corrupt
  | valid (cache : Cache)

/-- From `caching.py` lines 10-32: `load_cache(cache_file, default=None)`.  A
`None` default becomes `{}`; a missing file returns the default; an exception
while loading (truncated or corrupt file) is caught and returns the default.  The
function is total: no cache-file state makes it raise. -/
def load_cache (file : CacheFileState) (default : Option Cache) : Cache :=
  let d := match default with | none => [] | some c => c
  match file with
  | .missing => d
  | .truncated => d
  | .corrupt => d
  | .valid c => c

/-- From `sorting.py` lines 50-58: the inline cache loading of
`process_image_batch`: `encoding_cache` starts as `{}`; when caching is enabled and
a cache directory is set, an existing cache file is loaded inside a `try` whose
`except` resets the cache to `{}`, so a missing, truncated or corrupt file leaves
the empty cache. -/
def batch_encoding_cache (enable_cache : Bool) (cache_dir_set : Bool)
    (file : CacheFileState) : Cache :=
  if enable_cache && cache_dir_set then
    match file with
    | .missing => []
    | .truncated => []
    | .corrupt => []
    | .valid c => c
  else []

/-! ## Enumeration (`file_ops.py` lines 10-12, `sorting.py` lines 529-584) -/

/-- From `file_ops.py` lines 10-12:
`filename.lower().endswith(('.jpg', '.jpeg', '.png', '.bmp', '.gif'))`. -/
def is_image_file (filename : String) : Bool :=
  [".jpg", ".jpeg", ".png", ".bmp", ".gif"].any (fun e => filename.toLower.endsWith e)

/-- From `sorting.py` lines 539-544, the non-recursive enumeration: each directory
entry is a `(path, isfile)` pair and is selected iff it is a regular file passing
`is_image_file`. -/
def list_image_files (entries : List (String × Bool)) : List String :=
  entries.filterMap (fun fe => if fe.2 && is_image_file fe.1 then some fe.1 else none)

/-- From `sorting.py` lines 577-584: the initial statistics, whose total is the
number of enumerated image files. -/
def init_stats (image_files : List String) : RunStats :=
  { total_images := image_files.length
    recognized := 0
    unrecognized := 0
    errors := 0
    person_counts := [] }

/-! ## Concrete inputs used by the witnesses -/

/-- A concrete matching context over a one-point embedding space: one enrolled
identity `ana` with a single enrollment at distance `2/5` from every probe,
tolerance `3/5`, no priority list, age matching off. -/
def ctxW6 : MatchCtx Unit :=
  { fd := fun _ _ => 2 / 5
    known_face_encodings := fun _ => [()]
    known_face_names := ["ana"]
    tolerance := 3 / 5
    priority_list := []
    age_based_matching := false
    photo_date_found := false
    birthdates := []
    calcAge := fun _ => none
    age_tolerance := 5 }

/-- A concrete matching context with age-based matching enabled: identity `ana`
with birthdate `2015-01-01`, computed age `8` at the photo date, age tolerance
`5`, single enrollment at distance `2/5`, tolerance `3/5`. -/
def ctxW2 : MatchCtx Unit :=
  { fd := fun _ _ => 2 / 5
    known_face_encodings := fun _ => [()]
    known_face_names := ["ana"]
    tolerance := 3 / 5
    priority_list := []
    age_based_matching := true
    photo_date_found := true
    birthdates := [("ana", "2015-01-01")]
    calcAge := fun _ => some 8
    age_tolerance := 5 }

/-- A concrete matching context with a non-empty priority list `[ethan, ana]`:
both identities are candidates (`ana` closer than `ethan`), so priority must
override confidence. -/
def ctxW5 : MatchCtx Unit :=
  { fd := fun _ _ => 2 / 5
    known_face_encodings := fun _ => [()]
    known_face_names := ["ana", "ethan"]
    tolerance := 3 / 5
    priority_list := ["ethan", "ana"]
    age_based_matching := false
    photo_date_found := false
    birthdates := []
    calcAge := fun _ => none
    age_tolerance := 5 }

/-- A concrete checksum function (byte sum) for the relocation witnesses. -/
def hashW : List Nat → Nat := fun l => l.foldl (fun a b => a + b) 0

/-- A concrete filesystem holding one source file. -/
def fsW1 : FS := fun p => if p = "src.jpg" then some [1, 2, 3] else none

/-- A concrete move environment: the copy writes the exact source bytes, raises no
exception, and both removals succeed. -/
def envW1 : MoveEnv :=
  { copy := { dstAfter := some [1, 2, 3], raised := false }
    removeDstOk := true
    removeOrigOk := true }

/-- A concrete move environment whose copy silently truncates the source bytes to
`[9,9]` (a size mismatch) and whose `os.remove(destination)` cleanup then raises
(swallowed by the `except: pass`), so the corrupt partial copy is left behind. -/
def envW1bad : MoveEnv :=
  { copy := { dstAfter := some [9, 9], raised := false }
    removeDstOk := false
    removeOrigOk := true }

/-- A concrete filesystem holding one source file `s.jpg` with bytes `[1,2,3]`. -/
def fsW3 : FS := fun p => if p = "s.jpg" then some [1, 2, 3] else none

/-- A concrete copy attempt that raises no exception but leaves a truncated
one-byte file at the destination. -/
def attW3 : CopyAttempt := { dstAfter := some [7], raised := false }

/-- A concrete move environment whose copy silently truncates the file, so
verification must fail; the cleanup removal succeeds. -/
def envW4 : MoveEnv :=
  { copy := { dstAfter := some [9, 9], raised := false }
    removeDstOk := true
    removeOrigOk := true }

/-- Concrete run statistics before aggregating one result. -/
def statsW : RunStats :=
  { total_images := 1, recognized := 0, unrecognized := 0, errors := 0, person_counts := [] }

/-- A concrete `os.path.exists` in which the requested destination, the single
suffix candidate the loop can try before its counter guard trips, and the
timestamp fallback name all already exist. -/
def exW8 : String → Bool := fun p =>
  ["d/x_99999.jpg", "d/x_100000.jpg", "d/x_TS.jpg"].contains p

/-- A concrete `os.path.exists` for the positive naming witness: only the
requested destination `d/a.jpg` and its first suffix candidate exist. -/
def exW8b : String → Bool := fun p => ["d/a.jpg", "d/a_1.jpg"].contains p

/-! ## Helper lemmas -/

theorem foldl_min_le_init (xs : List ℚ) : ∀ a, xs.foldl min a ≤ a := by
  induction xs with
  | nil => intro a; simp
  | cons y ys ih =>
    intro a
    simp only [List.foldl_cons]
    exact le_trans (ih (min a y)) (min_le_left a y)

theorem foldl_min_le_mem (xs : List ℚ) : ∀ a x, x ∈ xs → xs.foldl min a ≤ x := by
  induction xs with
  | nil => intro a x hx; simp at hx
  | cons y ys ih =>
    intro a x hx
    simp only [List.foldl_cons]
    rcases List.mem_cons.mp hx with h1 | h1
    · subst h1
      exact le_trans (foldl_min_le_init ys (min a x)) (min_le_right a x)
    · exact ih (min a y) x h1

theorem foldl_min_mem (xs : List ℚ) : ∀ a, xs.foldl min a ∈ a :: xs := by
  induction xs with
  | nil => intro a; simp
  | cons x xs ih =>
    intro a
    simp only [List.foldl_cons]
    rcases List.mem_cons.mp (ih (min a x)) with h1 | h1
    · rcases min_choice a x with hc | hc
      · rw [h1, hc]; exact List.mem_cons_self _ _
      · rw [h1, hc]; exact List.mem_cons_of_mem _ (List.mem_cons_self _ _)
    · exact List.mem_cons_of_mem _ (List.mem_cons_of_mem _ h1)

theorem listMin_mem {l : List ℚ} {m : ℚ} (h : listMin l = some m) : m ∈ l := by
  cases l with
  | nil => simp [listMin] at h
  | cons x xs =>
    simp only [listMin, Option.some.injEq] at h
    subst h
    exact foldl_min_mem xs x

theorem listMin_le {l : List ℚ} {m : ℚ} (h : listMin l = some m) : ∀ x ∈ l, m ≤ x := by
  intro x hx
  cases l with
  | nil => simp [listMin] at h
  | cons y ys =>
    simp only [listMin, Option.some.injEq] at h
    subst h
    rcases List.mem_cons.mp hx with h1 | h1
    · subst h1; exact foldl_min_le_init ys x
    · exact foldl_min_le_mem ys y x h1

theorem listMin_isSome {l : List ℚ} (h : l ≠ []) : ∃ m, listMin l = some m := by
  cases l with
  | nil => exact absurd rfl h
  | cons x xs => exact ⟨xs.foldl min x, rfl⟩

theorem compare_snd {E : Type} (fd : E → E → ℚ) (known : List E) (unk : E) (tol : ℚ) :
    (compare_face_encodings_vectorized fd known unk tol).2 =
      known.map (fun k => fd k unk) := by
  cases known <;> simp [compare_face_encodings_vectorized]

theorem compare_fst {E : Type} (fd : E → E → ℚ) (known : List E) (unk : E) (tol : ℚ) :
    (compare_face_encodings_vectorized fd known unk tol).1 =
      ((compare_face_encodings_vectorized fd known unk tol).2).map
        (fun d => decide (d ≤ tol)) := by
  cases known <;> simp [compare_face_encodings_vectorized]

theorem any_matches_iff {E : Type} (fd : E → E → ℚ) (known : List E) (unk : E) (tol : ℚ) :
    ((compare_face_encodings_vectorized fd known unk tol).1.any id = true) ↔
      ∃ d ∈ (compare_face_encodings_vectorized fd known unk tol).2, d ≤ tol := by
  rw [compare_fst]
  simp [List.any_map, Function.comp]

theorem is_candidate_iff {E : Type} (ctx : MatchCtx E) (enc : E) (p : String) :
    is_candidate ctx enc p = true ↔
      ∃ d, listMin (face_dists ctx enc p) = some d ∧ d ≤ ctx.tolerance := by
  unfold is_candidate face_dists
  rw [any_matches_iff]
  constructor
  · rintro ⟨d, hd, hdt⟩
    obtain ⟨m, hm⟩ := listMin_isSome (List.ne_nil_of_mem hd)
    exact ⟨m, hm, le_trans (listMin_le hm d hd) hdt⟩
  · rintro ⟨m, hm, hmt⟩
    exact ⟨m, listMin_mem hm, hmt⟩

theorem listMin_face_dists_of_candidate {E : Type} {ctx : MatchCtx E} {enc : E}
    {p : String} (h : is_candidate ctx enc p = true) :
    ∃ m, listMin (face_dists ctx enc p) = some m := by
  obtain ⟨d, hd, _⟩ := (is_candidate_iff ctx enc p).mp h
  exact ⟨d, hd⟩

theorem person_confidence_eq_of_candidate {E : Type} {ctx : MatchCtx E} {enc : E}
    {p : String} {m : ℚ} (hc : is_candidate ctx enc p = true)
    (hm : listMin (face_dists ctx enc p) = some m) :
    person_confidence ctx enc p = some (apply_age_adjustment ctx p (1 - m)) := by
  unfold person_confidence
  rw [hc, hm]
  simp

theorem person_confidence_isSome_iff {E : Type} (ctx : MatchCtx E) (enc : E) (p : String) :
    (person_confidence ctx enc p).isSome = true ↔ is_candidate ctx enc p = true := by
  cases hany : is_candidate ctx enc p
  · unfold person_confidence
    simp [hany]
  · obtain ⟨m, hm⟩ := listMin_face_dists_of_candidate hany
    rw [person_confidence_eq_of_candidate hany hm]
    simp

theorem mem_found_persons {E : Type} (ctx : MatchCtx E) (enc : E) (p : String) (c : ℚ) :
    (p, c) ∈ found_persons ctx enc ↔
      p ∈ ctx.known_face_names ∧ person_confidence ctx enc p = some c := by
  unfold found_persons
  rw [List.mem_filterMap]
  constructor
  · rintro ⟨q, hq, hmap⟩
    rw [Option.map_eq_some'] at hmap
    obtain ⟨c', hc', heq⟩ := hmap
    cases heq
    exact ⟨hq, hc'⟩
  · rintro ⟨hp, hc⟩
    exact ⟨p, hp, by rw [hc]; rfl⟩

theorem apply_age_adjustment_off {E : Type} {ctx : MatchCtx E} (p : String) (c : ℚ)
    (hage : ctx.age_based_matching = false) :
    apply_age_adjustment ctx p c = c := by
  unfold apply_age_adjustment
  simp [hage]

theorem person_confidence_age_off {E : Type} {ctx : MatchCtx E} {enc : E} {p : String}
    {c : ℚ} (hage : ctx.age_based_matching = false)
    (h : person_confidence ctx enc p = some c) :
    ∃ d, listMin (face_dists ctx enc p) = some d ∧ d ≤ ctx.tolerance ∧ c = 1 - d := by
  have hcand : is_candidate ctx enc p = true := by
    rw [← person_confidence_isSome_iff]
    rw [h]
    rfl
  obtain ⟨d, hd, hdt⟩ := (is_candidate_iff ctx enc p).mp hcand
  refine ⟨d, hd, hdt, ?_⟩
  rw [person_confidence_eq_of_candidate hcand hd, apply_age_adjustment_off p _ hage] at h
  exact (Option.some.injEq _ _ ▸ h).symm

theorem find_best_match_some_mem {E : Type} {ctx : MatchCtx E} {enc : E} {p : String}
    (h : (find_best_match ctx enc).1 = some p) :
    ∃ c, (p, c) ∈ found_persons ctx enc := by
  unfold find_best_match at h
  cases hfp : (found_persons ctx enc).isEmpty with
  | true => simp only [hfp, if_true] at h; simp at h
  | false =>
    simp only [hfp, Bool.false_eq_true, if_false] at h
    cases hpl : ctx.priority_list.isEmpty with
    | true =>
      simp only [hpl, if_true] at h
      cases hs : (found_persons ctx enc).mergeSort (fun a b => decide (b.2 ≤ a.2)) with
      | nil => rw [hs] at h; simp at h
      | cons x rest =>
        rw [hs] at h
        simp only [Option.some.injEq] at h
        subst h
        refine ⟨x.2, ?_⟩
        have hx : x ∈ (found_persons ctx enc).mergeSort (fun a b => decide (b.2 ≤ a.2)) := by
          rw [hs]; exact List.mem_cons_self _ _
        exact List.mem_mergeSort.mp hx
    | false =>
      simp only [hpl, Bool.false_eq_true, if_false] at h
      cases hpm : (((found_persons ctx enc).mergeSort (fun a b => decide (b.2 ≤ a.2))).filter
          (fun x => ctx.priority_list.contains x.1)).isEmpty with
      | true => simp only [hpm, if_true] at h; simp at h
      | false =>
        simp only [hpm, Bool.false_eq_true, if_false] at h
        cases hs : (((found_persons ctx enc).mergeSort (fun a b => decide (b.2 ≤ a.2))).filter
            (fun x => ctx.priority_list.contains x.1)).mergeSort
            (fun a b =>
              decide (priority_key ctx.priority_list a ≤ priority_key ctx.priority_list b)) with
        | nil => rw [hs] at h; simp at h
        | cons x rest =>
          rw [hs] at h
          simp only [Option.some.injEq] at h
          subst h
          refine ⟨x.2, ?_⟩
          have hx : x ∈ (((found_persons ctx enc).mergeSort (fun a b => decide (b.2 ≤ a.2))).filter
              (fun x => ctx.priority_list.contains x.1)).mergeSort
              (fun a b =>
                decide (priority_key ctx.priority_list a ≤ priority_key ctx.priority_list b)) := by
            rw [hs]; exact List.mem_cons_self _ _
          have hx2 := List.mem_mergeSort.mp hx
          have hx3 := (List.mem_filter.mp hx2).1
          exact List.mem_mergeSort.mp hx3

/-- C6: an identity is a candidate iff its minimum enrollment distance is at most
the tolerance (a distance exactly equal to the tolerance counts), any identity in
`found_persons` carries confidence `1 − min distance` (age matching off), and any
returned match is an enrolled candidate. -/
theorem c6_candidate_boundary {E : Type} (ctx : MatchCtx E) (enc : E) (p : String) (c : ℚ)
    (hage : ctx.age_based_matching = false) :
    (is_candidate ctx enc p = true ↔
      ∃ d, listMin (face_dists ctx enc p) = some d ∧ d ≤ ctx.tolerance)
    ∧ ((p, c) ∈ found_persons ctx enc →
      ∃ d, listMin (face_dists ctx enc p) = some d ∧ d ≤ ctx.tolerance ∧ c = 1 - d)
    ∧ ((find_best_match ctx enc).1 = some p →
      p ∈ ctx.known_face_names ∧ is_candidate ctx enc p = true) := by
  refine ⟨is_candidate_iff ctx enc p, ?_, ?_⟩
  · intro hmem
    exact person_confidence_age_off hage ((mem_found_persons ctx enc p c).mp hmem).2
  · intro hret
    obtain ⟨c', hmem⟩ := find_best_match_some_mem hret
    have h2 := (mem_found_persons ctx enc p c').mp hmem
    refine ⟨h2.1, ?_⟩
    rw [← person_confidence_isSome_iff, h2.2]
    rfl

/-- Witness for C6 at the concrete context `ctxW6` (single identity at distance
`2/5`, tolerance `3/5`), instantiating every part of the boundary theorem. -/
theorem c6_candidate_boundary_witness :
    (is_candidate ctxW6 () "ana" = true ↔
      ∃ d, listMin (face_dists ctxW6 () "ana") = some d ∧ d ≤ ctxW6.tolerance)
    ∧ (("ana", (2 : ℚ) / 5) ∈ found_persons ctxW6 () →
      ∃ d, listMin (face_dists ctxW6 () "ana") = some d ∧ d ≤ ctxW6.tolerance ∧
        (2 : ℚ) / 5 = 1 - d)
    ∧ ((find_best_match ctxW6 ()).1 = some "ana" →
      "ana" ∈ ctxW6.known_face_names ∧ is_candidate ctxW6 () "ana" = true) :=
  c6_candidate_boundary ctxW6 () "ana" (2 / 5) rfl

theorem found_persons_names_aux {E : Type} (ctx : MatchCtx E) (enc : E)
    (names : List String) :
    (names.filterMap (fun p => (person_confidence ctx enc p).map (fun c => (p, c)))).map
      Prod.fst = names.filter (fun q => is_candidate ctx enc q) := by
  induction names with
  | nil => rfl
  | cons q qs ih =>
    simp only [List.filterMap_cons, List.filter_cons]
    cases hq : person_confidence ctx enc q with
    | none =>
      have hc : is_candidate ctx enc q = false := by
        cases hcc : is_candidate ctx enc q
        · rfl
        · have := (person_confidence_isSome_iff ctx enc q).mpr hcc
          rw [hq] at this
          simp at this
      simp only [Option.map_none', hc, Bool.false_eq_true, if_false]
      exact ih
    | some c0 =>
      have hc : is_candidate ctx enc q = true := by
        rw [← person_confidence_isSome_iff, hq]
        rfl
      simp only [Option.map_some', hc, if_true, List.map_cons]
      rw [ih]

theorem found_persons_names {E : Type} (ctx : MatchCtx E) (enc : E) :
    (found_persons ctx enc).map Prod.fst =
      ctx.known_face_names.filter (fun q => is_candidate ctx enc q) :=
  found_persons_names_aux ctx enc ctx.known_face_names

theorem apply_age_adjustment_on {E : Type} {ctx : MatchCtx E} {p b : String} {a : Int}
    (c : ℚ) (hA : ctx.age_based_matching = true) (hP : ctx.photo_date_found = true)
    (hb : ctx.birthdates.lookup p = some b) (hbne : b ≠ "") (ha : ctx.calcAge b = some a) :
    apply_age_adjustment ctx p c = age_adjusted_confidence c a ctx.age_tolerance := by
  have hne : ctx.birthdates.isEmpty = false := by
    cases hbl : ctx.birthdates with
    | nil => rw [hbl] at hb; simp [List.lookup] at hb
    | cons x xs => rfl
  unfold apply_age_adjustment
  rw [hA, hP, hne, hb]
  simp [hbne, ha]

/-- C2: when age-based matching is enabled and the candidate `p` has a known
(non-empty) birthdate whose age `a` at the available photo date is computed, the
candidate is never discarded (the set of recorded identities is exactly the set of
candidates, independent of any age information), and its recorded confidence is
`1 − min distance` when `a` lies inside the code's tolerance window
`[max 0 (a − t), a + t]` (with `t` the age tolerance widened by `+2` when
`a < 10`) and exactly half of that otherwise — never any other reduction. -/
theorem c2_age_adjustment_soft {E : Type} (ctx : MatchCtx E) (enc : E) (p b : String)
    (a : Int) (c : ℚ)
    (hA : ctx.age_based_matching = true) (hP : ctx.photo_date_found = true)
    (hb : ctx.birthdates.lookup p = some b) (hbne : b ≠ "")
    (ha : ctx.calcAge b = some a) :
    ((found_persons ctx enc).map Prod.fst =
      ctx.known_face_names.filter (fun q => is_candidate ctx enc q))
    ∧ ((p, c) ∈ found_persons ctx enc →
      ∃ d, listMin (face_dists ctx enc p) = some d ∧
        ((max 0 (a - (if a < 10 then ctx.age_tolerance + 2 else ctx.age_tolerance)) ≤ a ∧
            a < a + (if a < 10 then ctx.age_tolerance + 2 else ctx.age_tolerance) + 1 →
          c = 1 - d)
        ∧ (¬(max 0 (a - (if a < 10 then ctx.age_tolerance + 2 else ctx.age_tolerance)) ≤ a ∧
            a < a + (if a < 10 then ctx.age_tolerance + 2 else ctx.age_tolerance) + 1) →
          c = (1 - d) * (1 / 2))))
    ∧ (∀ c0 : ℚ, age_adjusted_confidence c0 a ctx.age_tolerance = c0 ∨
        age_adjusted_confidence c0 a ctx.age_tolerance = c0 * (1 / 2)) := by
  refine ⟨found_persons_names ctx enc, ?_, ?_⟩
  · intro hmem
    have h2 := (mem_found_persons ctx enc p c).mp hmem
    have hcand : is_candidate ctx enc p = true := by
      rw [← person_confidence_isSome_iff, h2.2]
      rfl
    obtain ⟨m, hm⟩ := listMin_face_dists_of_candidate hcand
    have hpc := person_confidence_eq_of_candidate hcand hm
    rw [h2.2] at hpc
    have hc : c = apply_age_adjustment ctx p (1 - m) := by
      exact (Option.some.injEq _ _).mp hpc
    rw [apply_age_adjustment_on (1 - m) hA hP hb hbne ha] at hc
    unfold age_adjusted_confidence at hc
    refine ⟨m, hm, ?_, ?_⟩
    · intro hw
      rw [hc]
      simp only [if_pos hw]
    · intro hw
      rw [hc]
      simp only [if_neg hw]
  · intro c0
    unfold age_adjusted_confidence
    by_cases hw : max 0 (a - (if a < 10 then ctx.age_tolerance + 2 else ctx.age_tolerance)) ≤ a ∧
        a < a + (if a < 10 then ctx.age_tolerance + 2 else ctx.age_tolerance) + 1
    · left; simp only [if_pos hw]
    · right; simp only [if_neg hw]

/-- Witness for C2 at the concrete context `ctxW2` (age-based matching enabled,
`ana` with birthdate `2015-01-01`, age `8`, tolerance window `5`). -/
theorem c2_age_adjustment_soft_witness :
    ((found_persons ctxW2 ()).map Prod.fst =
      ctxW2.known_face_names.filter (fun q => is_candidate ctxW2 () q))
    ∧ (("ana", (2 : ℚ) / 5) ∈ found_persons ctxW2 () →
      ∃ d, listMin (face_dists ctxW2 () "ana") = some d ∧
        ((max 0 ((8 : Int) - (if (8 : Int) < 10 then ctxW2.age_tolerance + 2
              else ctxW2.age_tolerance)) ≤ 8 ∧
            (8 : Int) < 8 + (if (8 : Int) < 10 then ctxW2.age_tolerance + 2
              else ctxW2.age_tolerance) + 1 →
          (2 : ℚ) / 5 = 1 - d)
        ∧ (¬(max 0 ((8 : Int) - (if (8 : Int) < 10 then ctxW2.age_tolerance + 2
              else ctxW2.age_tolerance)) ≤ 8 ∧
            (8 : Int) < 8 + (if (8 : Int) < 10 then ctxW2.age_tolerance + 2
              else ctxW2.age_tolerance) + 1) →
          (2 : ℚ) / 5 = (1 - d) * (1 / 2))))
    ∧ (∀ c0 : ℚ, age_adjusted_confidence c0 8 ctxW2.age_tolerance = c0 ∨
        age_adjusted_confidence c0 8 ctxW2.age_tolerance = c0 * (1 / 2)) :=
  c2_age_adjustment_soft ctxW2 () "ana" "2015-01-01" 8 (2 / 5) rfl rfl (by decide)
    (by decide) rfl

theorem priority_key_of_contains {pl : List String} {x : String × ℚ}
    (h : pl.contains x.1 = true) : priority_key pl x = pl.indexOf x.1 := by
  unfold priority_key
  rw [h]
  rfl

/-- C5: with a non-empty priority list, `find_best_match` returns either no match
or an identity from the priority list; a `none` result carries confidence `0`; if
no candidate belongs to the priority list the result is exactly `(none, 0)` even
when candidates exist; and a returned identity has minimal priority-list index
among all candidates in the priority list, regardless of confidence. -/
theorem c5_priority_hard_filter {E : Type} (ctx : MatchCtx E) (enc : E)
    (hp : ctx.priority_list ≠ []) :
    (∀ p, (find_best_match ctx enc).1 = some p → p ∈ ctx.priority_list)
    ∧ ((find_best_match ctx enc).1 = none → (find_best_match ctx enc).2 = 0)
    ∧ ((∀ q ∈ ctx.known_face_names, is_candidate ctx enc q = true →
        q ∉ ctx.priority_list) → find_best_match ctx enc = (none, 0))
    ∧ (∀ p q, (find_best_match ctx enc).1 = some p → q ∈ ctx.known_face_names →
        is_candidate ctx enc q = true → q ∈ ctx.priority_list →
        ctx.priority_list.indexOf p ≤ ctx.priority_list.indexOf q) := by
  have hpl : ctx.priority_list.isEmpty = false := by
    cases hl : ctx.priority_list
    · exact absurd hl hp
    · rfl
  unfold find_best_match
  cases hfp : (found_persons ctx enc).isEmpty with
  | true =>
    simp only [hfp, if_true]
    refine ⟨?_, ?_, ?_, ?_⟩
    · intro p h; simp at h
    · intro _; trivial
    · intro _; trivial
    · intro p q h; simp at h
  | false =>
    simp only [hfp, hpl, Bool.false_eq_true, if_false]
    cases hpm : (((found_persons ctx enc).mergeSort (fun a b => decide (b.2 ≤ a.2))).filter
        (fun x => ctx.priority_list.contains x.1)).isEmpty with
    | true =>
      simp only [hpm, if_true]
      refine ⟨?_, ?_, ?_, ?_⟩
      · intro p h; simp at h
      · intro _; trivial
      · intro _; trivial
      · intro p q h; simp at h
    | false =>
      simp only [hpm, Bool.false_eq_true, if_false]
      cases hs : (((found_persons ctx enc).mergeSort (fun a b => decide (b.2 ≤ a.2))).filter
          (fun x => ctx.priority_list.contains x.1)).mergeSort
          (fun a b =>
            decide (priority_key ctx.priority_list a ≤ priority_key ctx.priority_list b)) with
      | nil =>
        simp only [hs]
        refine ⟨?_, ?_, ?_, ?_⟩
        · intro p h; simp at h
        · intro _; trivial
        · intro _; trivial
        · intro p q h; simp at h
      | cons x rest =>
        simp only [hs]
        have hxpm : x ∈ (((found_persons ctx enc).mergeSort (fun a b => decide (b.2 ≤ a.2))).filter
            (fun x => ctx.priority_list.contains x.1)) := by
          have : x ∈ (((found_persons ctx enc).mergeSort
              (fun a b => decide (b.2 ≤ a.2))).filter
              (fun x => ctx.priority_list.contains x.1)).mergeSort
              (fun a b =>
                decide (priority_key ctx.priority_list a ≤ priority_key ctx.priority_list b)) := by
            rw [hs]; exact List.mem_cons_self _ _
          exact List.mem_mergeSort.mp this
        have hxcontains : ctx.priority_list.contains x.1 = true :=
          (List.mem_filter.mp hxpm).2
        have hxprio : x.1 ∈ ctx.priority_list := List.elem_iff.mp hxcontains
        have hxfp : x ∈ found_persons ctx enc :=
          List.mem_mergeSort.mp (List.mem_filter.mp hxpm).1
        have hxfound := (mem_found_persons ctx enc x.1 x.2).mp hxfp
        have hxcand : is_candidate ctx enc x.1 = true := by
          rw [← person_confidence_isSome_iff, hxfound.2]
          rfl
        refine ⟨?_, ?_, ?_, ?_⟩
        · intro p h
          simp only [Option.some.injEq] at h
          exact h ▸ hxprio
        · intro h; simp at h
        · intro hnone
          exact absurd hxprio (hnone x.1 hxfound.1 hxcand)
        · intro p q h hqn hqc hqp
          simp only [Option.some.injEq] at h
          subst h
          obtain ⟨cq, hcq⟩ := Option.isSome_iff_exists.mp
            ((person_confidence_isSome_iff ctx enc q).mpr hqc)
          have hqfp : (q, cq) ∈ found_persons ctx enc :=
            (mem_found_persons ctx enc q cq).mpr ⟨hqn, hcq⟩
          have hqpm : (q, cq) ∈ (((found_persons ctx enc).mergeSort
              (fun a b => decide (b.2 ≤ a.2))).filter
              (fun x => ctx.priority_list.contains x.1)) :=
            List.mem_filter.mpr ⟨List.mem_mergeSort.mpr hqfp, List.elem_iff.mpr hqp⟩
          have hqmem : (q, cq) ∈ (((found_persons ctx enc).mergeSort
              (fun a b => decide (b.2 ≤ a.2))).filter
              (fun x => ctx.priority_list.contains x.1)).mergeSort
              (fun a b =>
                decide (priority_key ctx.priority_list a ≤ priority_key ctx.priority_list b)) :=
            List.mem_mergeSort.mpr hqpm
          rw [hs] at hqmem
          have hsorted := @List.sorted_mergeSort (String × ℚ)
            (fun a b =>
              decide (priority_key ctx.priority_list a ≤ priority_key ctx.priority_list b))
            (fun a b c hab hbc => by
              simp only [decide_eq_true_eq] at *
              omega)
            (fun a b => by
              simp only [Bool.or_eq_true, decide_eq_true_eq]
              omega)
            (((found_persons ctx enc).mergeSort (fun a b => decide (b.2 ≤ a.2))).filter
              (fun x => ctx.priority_list.contains x.1))
          rw [hs] at hsorted
          rcases List.mem_cons.mp hqmem with h1 | h1
          · have hqx : q = x.1 := congrArg Prod.fst h1
            rw [hqx]
          · have hle := (List.pairwise_cons.mp hsorted).1 (q, cq) h1
            simp only [decide_eq_true_eq] at hle
            rw [priority_key_of_contains hxcontains,
              priority_key_of_contains (List.elem_iff.mpr hqp)] at hle
            exact hle

/-- Witness for C5 at the concrete context `ctxW5` (priority list `[ethan, ana]`,
both identities candidates), instantiating the hard-filter theorem. -/
theorem c5_priority_hard_filter_witness :
    (∀ p, (find_best_match ctxW5 ()).1 = some p → p ∈ ctxW5.priority_list)
    ∧ ((find_best_match ctxW5 ()).1 = none → (find_best_match ctxW5 ()).2 = 0)
    ∧ ((∀ q ∈ ctxW5.known_face_names, is_candidate ctxW5 () q = true →
        q ∉ ctxW5.priority_list) → find_best_match ctxW5 () = (none, 0))
    ∧ (∀ p q, (find_best_match ctxW5 ()).1 = some p → q ∈ ctxW5.known_face_names →
        is_candidate ctxW5 () q = true → q ∈ ctxW5.priority_list →
        ctxW5.priority_list.indexOf p ≤ ctxW5.priority_list.indexOf q) :=
  c5_priority_hard_filter ctxW5 () (by decide)

theorem fsUpdate_same (fs : FS) (p : String) (v : Option (List Nat)) :
    fsUpdate fs p v p = v := by
  unfold fsUpdate
  rw [if_pos rfl]

theorem fsUpdate_other (fs : FS) (p : String) (v : Option (List Nat)) (q : String)
    (h : q ≠ p) : fsUpdate fs p v q = fs q := by
  unfold fsUpdate
  rw [if_neg h]

/-- C1 amended: in move mode (with distinct source and destination paths, the
source readable), the source file can only be absent afterwards when the
operation succeeded and the destination holds content of the source's size whose
checksum equals the checksum computed from the source before the copy; on any
failure the source is untouched; after a failure past the copy step (a
verification failure) the destination is gone whenever the swallowed
`os.remove(destination)` cleanup succeeded, and otherwise is left exactly as the
copy attempt wrote it. -/
theorem c1_move_safety (hash : List Nat → Nat) (src dst : String) (fs : FS) (env : MoveEnv)
    (hne : src ≠ dst) (srcC : List Nat) (hsrc : fs src = some srcC) :
    ((move_file_op hash src dst fs env).1 src = none →
      (move_file_op hash src dst fs env).2 = true ∧
      ∃ dstC, (move_file_op hash src dst fs env).1 dst = some dstC ∧
        dstC.length = srcC.length ∧ hash dstC = hash srcC)
    ∧ ((move_file_op hash src dst fs env).2 = false →
      (move_file_op hash src dst fs env).1 src = fs src)
    ∧ ((move_file_op hash src dst fs env).2 = false → env.copy.raised = false →
      env.removeDstOk = true →
      (move_file_op hash src dst fs env).1 dst = none)
    ∧ ((move_file_op hash src dst fs env).2 = false → env.copy.raised = false →
      env.removeDstOk = false →
      (move_file_op hash src dst fs env).1 dst = env.copy.dstAfter) := by
  obtain ⟨⟨da, rz⟩, rdst, rm⟩ := env
  have hf1s : fsUpdate fs dst da src = fs src := fsUpdate_other fs dst da src hne
  have hf1d : fsUpdate fs dst da dst = da := fsUpdate_same fs dst da
  unfold move_file_op
  dsimp only
  simp only [hsrc]
  cases rz with
  | true =>
    rw [if_pos rfl]
    dsimp only
    refine ⟨?_, ?_, ?_, ?_⟩
    · intro habs
      rw [hf1s, hsrc] at habs
      simp at habs
    · intro _
      rw [hf1s]
      exact hsrc
    · intro _ habs _
      simp at habs
    · intro _ habs _
      simp at habs
  | false =>
    rw [if_neg Bool.false_ne_true]
    cases da with
    | none =>
      simp only [hf1d]
      refine ⟨?_, ?_, ?_, ?_⟩
      · intro habs
        rw [hf1s, hsrc] at habs
        simp at habs
      · intro _
        rw [hf1s]
        exact hsrc
      · intro _ _ _
        trivial
      · intro _ _ _
        trivial
    | some dstC =>
      simp only [hf1d, hf1s, hsrc]
      by_cases hlen : dstC.length ≠ srcC.length
      · rw [if_pos hlen]
        cases rdst with
        | true =>
          rw [if_pos rfl]
          dsimp only
          refine ⟨?_, ?_, ?_, ?_⟩
          · intro habs
            rw [fsUpdate_other _ dst none src hne, hf1s, hsrc] at habs
            simp at habs
          · intro _
            rw [fsUpdate_other _ dst none src hne, hf1s]
            exact hsrc
          · intro _ _ _
            exact fsUpdate_same _ dst none
          · intro _ _ habs
            simp at habs
        | false =>
          rw [if_neg Bool.false_ne_true]
          dsimp only
          refine ⟨?_, ?_, ?_, ?_⟩
          · intro habs
            rw [hf1s, hsrc] at habs
            simp at habs
          · intro _
            rw [hf1s]
            exact hsrc
          · intro _ _ habs
            simp at habs
          · intro _ _ _
            exact hf1d
      · rw [if_neg hlen]
        by_cases hck : hash dstC ≠ hash srcC
        · rw [if_pos hck]
          cases rdst with
          | true =>
            rw [if_pos rfl]
            dsimp only
            refine ⟨?_, ?_, ?_, ?_⟩
            · intro habs
              rw [fsUpdate_other _ dst none src hne, hf1s, hsrc] at habs
              simp at habs
            · intro _
              rw [fsUpdate_other _ dst none src hne, hf1s]
              exact hsrc
            · intro _ _ _
              exact fsUpdate_same _ dst none
            · intro _ _ habs
              simp at habs
          | false =>
            rw [if_neg Bool.false_ne_true]
            dsimp only
            refine ⟨?_, ?_, ?_, ?_⟩
            · intro habs
              rw [hf1s, hsrc] at habs
              simp at habs
            · intro _
              rw [hf1s]
              exact hsrc
            · intro _ _ habs
              simp at habs
            · intro _ _ _
              exact hf1d
        · rw [if_neg hck]
          cases rm with
          | true =>
            rw [if_pos rfl]
            dsimp only
            refine ⟨?_, ?_, ?_, ?_⟩
            · intro _
              refine ⟨rfl, dstC, ?_, not_not.mp hlen, not_not.mp hck⟩
              rw [fsUpdate_other _ src none dst (Ne.symm hne)]
              exact hf1d
            · intro habs
              simp at habs
            · intro habs _ _
              simp at habs
            · intro habs _ _
              simp at habs
          | false =>
            rw [if_neg Bool.false_ne_true]
            dsimp only
            refine ⟨?_, ?_, ?_, ?_⟩
            · intro habs
              rw [hf1s, hsrc] at habs
              simp at habs
            · intro habs
              simp at habs
            · intro habs _ _
              simp at habs
            · intro habs _ _
              simp at habs

/-- C1 counterexample: a move whose copy silently truncates `[1,2,3]` to `[9,9]`
(a size mismatch) and whose `os.remove(destination)` cleanup then fails (the
exception swallowed by the `except: pass` of `sorting.py` lines 295-298): the
operation reports failure and the source is intact, but the corrupt partial
destination is left behind — refuting the claim's assertion that on a failed
verification the partial destination is removed. -/
theorem c1_counterexample :
    (move_file_op hashW "src.jpg" "out/src.jpg" fsW1 envW1bad).2 = false
    ∧ envW1bad.copy.raised = false
    ∧ ([9, 9] : List Nat).length ≠ ([1, 2, 3] : List Nat).length
    ∧ (move_file_op hashW "src.jpg" "out/src.jpg" fsW1 envW1bad).1 "out/src.jpg" =
        some [9, 9]
    ∧ (move_file_op hashW "src.jpg" "out/src.jpg" fsW1 envW1bad).1 "src.jpg" =
        some [1, 2, 3] := by
  refine ⟨by decide, by decide, by decide, by decide, by decide⟩

/-- Witness for the amended C1 theorem: a concrete move of `src.jpg` (bytes
`[1,2,3]`) whose copy is faithful and whose removals succeed. -/
theorem c1_move_safety_witness :
    ((move_file_op hashW "src.jpg" "out/src.jpg" fsW1 envW1).1 "src.jpg" = none →
      (move_file_op hashW "src.jpg" "out/src.jpg" fsW1 envW1).2 = true ∧
      ∃ dstC, (move_file_op hashW "src.jpg" "out/src.jpg" fsW1 envW1).1 "out/src.jpg" =
          some dstC ∧ dstC.length = [1, 2, 3].length ∧ hashW dstC = hashW [1, 2, 3])
    ∧ ((move_file_op hashW "src.jpg" "out/src.jpg" fsW1 envW1).2 = false →
      (move_file_op hashW "src.jpg" "out/src.jpg" fsW1 envW1).1 "src.jpg" =
        fsW1 "src.jpg")
    ∧ ((move_file_op hashW "src.jpg" "out/src.jpg" fsW1 envW1).2 = false →
      envW1.copy.raised = false → envW1.removeDstOk = true →
      (move_file_op hashW "src.jpg" "out/src.jpg" fsW1 envW1).1 "out/src.jpg" = none)
    ∧ ((move_file_op hashW "src.jpg" "out/src.jpg" fsW1 envW1).2 = false →
      envW1.copy.raised = false → envW1.removeDstOk = false →
      (move_file_op hashW "src.jpg" "out/src.jpg" fsW1 envW1).1 "out/src.jpg" =
        envW1.copy.dstAfter) :=
  c1_move_safety hashW "src.jpg" "out/src.jpg" fsW1 envW1 (by decide) [1, 2, 3] (by decide)

/-- C3 counterexample: in copy (non-move) mode, a copy that raises no exception
but leaves a truncated file (`[7]`, one byte, against a three-byte source) is
reported as success and the wrong-sized destination file is left in place — the
claimed size/checksum verification and corrupt-destination cleanup do not exist in
the copy branch. -/
theorem c3_counterexample :
    (copy_file_op "s.jpg" "d/s.jpg" fsW3 attW3).2 = true
    ∧ (copy_file_op "s.jpg" "d/s.jpg" fsW3 attW3).1 "s.jpg" = some [1, 2, 3]
    ∧ (copy_file_op "s.jpg" "d/s.jpg" fsW3 attW3).1 "d/s.jpg" = some [7]
    ∧ ([7] : List Nat).length ≠ ([1, 2, 3] : List Nat).length := by
  refine ⟨rfl, by decide, by decide, by decide⟩

/-- C3 amended: in copy mode the engine performs no post-copy verification at all:
it reports success exactly when `shutil.copy2` raised no exception, the destination
is left in whatever state the copy attempt produced (never cleaned up, even on
failure), and the source file is untouched. -/
theorem c3_copy_no_verification (src dst : String) (fs : FS) (att : CopyAttempt)
    (hne : src ≠ dst) :
    ((copy_file_op src dst fs att).2 = !att.raised)
    ∧ (copy_file_op src dst fs att).1 dst = att.dstAfter
    ∧ (copy_file_op src dst fs att).1 src = fs src := by
  obtain ⟨da, rz⟩ := att
  unfold copy_file_op
  dsimp only
  cases rz with
  | true =>
    rw [if_pos rfl]
    exact ⟨rfl, fsUpdate_same fs dst da, fsUpdate_other fs dst da src hne⟩
  | false =>
    rw [if_neg Bool.false_ne_true]
    exact ⟨rfl, fsUpdate_same fs dst da, fsUpdate_other fs dst da src hne⟩

/-- Witness for the amended C3 theorem at the concrete truncating copy. -/
theorem c3_copy_no_verification_witness :
    ((copy_file_op "s.jpg" "d/s.jpg" fsW3 attW3).2 = !attW3.raised)
    ∧ (copy_file_op "s.jpg" "d/s.jpg" fsW3 attW3).1 "d/s.jpg" = attW3.dstAfter
    ∧ (copy_file_op "s.jpg" "d/s.jpg" fsW3 attW3).1 "s.jpg" = fsW3 "s.jpg" :=
  c3_copy_no_verification "s.jpg" "d/s.jpg" fsW3 attW3 (by decide)

theorem move_file_op_fail_src (hash : List Nat → Nat) (src dst : String) (fs : FS)
    (env : MoveEnv) (hne : src ≠ dst)
    (hfail : (move_file_op hash src dst fs env).2 = false) :
    (move_file_op hash src dst fs env).1 src = fs src := by
  obtain ⟨⟨da, rz⟩, rdst, rm⟩ := env
  have hf1s : fsUpdate fs dst da src = fs src := fsUpdate_other fs dst da src hne
  have hf1d : fsUpdate fs dst da dst = da := fsUpdate_same fs dst da
  unfold move_file_op at hfail ⊢
  cases hsrc : fs src with
  | none =>
    simp only [hsrc]
  | some srcC =>
    simp only [hsrc] at hfail ⊢
    cases rz with
    | true =>
      rw [if_pos rfl]
      dsimp only
      rw [hf1s]
      exact hsrc
    | false =>
      rw [if_neg Bool.false_ne_true] at hfail ⊢
      cases da with
      | none =>
        simp only [hf1d] at hfail ⊢
        rw [hf1s]
        exact hsrc
      | some dstC =>
        simp only [hf1d, hf1s, hsrc] at hfail ⊢
        by_cases hlen : dstC.length ≠ srcC.length
        · rw [if_pos hlen]
          cases rdst with
          | true =>
            rw [if_pos rfl]
            dsimp only
            rw [fsUpdate_other _ dst none src hne, hf1s]
            exact hsrc
          | false =>
            rw [if_neg Bool.false_ne_true]
            dsimp only
            rw [hf1s]
            exact hsrc
        · rw [if_neg hlen] at hfail ⊢
          by_cases hck : hash dstC ≠ hash srcC
          · rw [if_pos hck]
            cases rdst with
            | true =>
              rw [if_pos rfl]
              dsimp only
              rw [fsUpdate_other _ dst none src hne, hf1s]
              exact hsrc
            | false =>
              rw [if_neg Bool.false_ne_true]
              dsimp only
              rw [hf1s]
              exact hsrc
          · rw [if_neg hck] at hfail ⊢
            cases rm with
            | true =>
              rw [if_pos rfl] at hfail
              simp at hfail
            | false =>
              rw [if_neg Bool.false_ne_true] at hfail
              simp at hfail

theorem update_stats_fail (stats : RunStats) (person : Option String) :
    (update_stats_for_result stats (false, person)).unrecognized = stats.unrecognized + 1
    ∧ (update_stats_for_result stats (false, person)).errors = stats.errors
    ∧ (update_stats_for_result stats (false, person)).recognized = stats.recognized := by
  unfold update_stats_for_result
  dsimp only
  rw [if_neg Bool.false_ne_true]
  exact ⟨rfl, rfl, rfl⟩

/-- C4 counterexample: a matched file whose move fails verification (the copy
silently truncates `[1,2,3]` to `[9,9]`, a size mismatch) yields result
`(False, None)`, which the aggregation of `sort_images` counts as `unrecognized`;
the `errors` counter stays unchanged — contradicting the claim that relocation
failures are recorded as `error`. -/
theorem c4_counterexample :
    (move_file_op hashW "src.jpg" "out/src.jpg" fsW1 envW4).2 = false
    ∧ (update_stats_for_result statsW
        ((move_file_op hashW "src.jpg" "out/src.jpg" fsW1 envW4).2, none)).errors = 0
    ∧ (update_stats_for_result statsW
        ((move_file_op hashW "src.jpg" "out/src.jpg" fsW1 envW4).2, none)).unrecognized = 1
    ∧ (move_file_op hashW "src.jpg" "out/src.jpg" fsW1 envW4).1 "src.jpg" =
        some [1, 2, 3] := by
  refine ⟨by decide, by decide, by decide, by decide⟩

/-- C4 amended: for every file whose face was matched but whose move fails (copy
error, size mismatch, or checksum mismatch), the per-file outcome recorded in the
run statistics is `unrecognized` — not `error` — and the original file is left
untouched. -/
theorem c4_relocation_failure_unrecognized (hash : List Nat → Nat) (src dst : String)
    (fs : FS) (env : MoveEnv) (stats : RunStats) (hne : src ≠ dst)
    (hfail : (move_file_op hash src dst fs env).2 = false) :
    (update_stats_for_result stats
        ((move_file_op hash src dst fs env).2, none)).unrecognized =
      stats.unrecognized + 1
    ∧ (update_stats_for_result stats
        ((move_file_op hash src dst fs env).2, none)).errors = stats.errors
    ∧ (update_stats_for_result stats
        ((move_file_op hash src dst fs env).2, none)).recognized = stats.recognized
    ∧ (move_file_op hash src dst fs env).1 src = fs src := by
  rw [hfail]
  obtain ⟨h1, h2, h3⟩ := update_stats_fail stats none
  exact ⟨h1, h2, h3, move_file_op_fail_src hash src dst fs env hne hfail⟩

/-- Witness for the amended C4 theorem at the concrete failing move. -/
theorem c4_relocation_failure_unrecognized_witness :
    (update_stats_for_result statsW
        ((move_file_op hashW "src.jpg" "out/src.jpg" fsW1 envW4).2, none)).unrecognized =
      statsW.unrecognized + 1
    ∧ (update_stats_for_result statsW
        ((move_file_op hashW "src.jpg" "out/src.jpg" fsW1 envW4).2, none)).errors =
      statsW.errors
    ∧ (update_stats_for_result statsW
        ((move_file_op hashW "src.jpg" "out/src.jpg" fsW1 envW4).2, none)).recognized =
      statsW.recognized
    ∧ (move_file_op hashW "src.jpg" "out/src.jpg" fsW1 envW4).1 "src.jpg" =
      fsW1 "src.jpg" :=
  c4_relocation_failure_unrecognized hashW "src.jpg" "out/src.jpg" fsW1 envW4 statsW
    (by decide) (by decide)

/-- C7: after the end-of-run reconciliation the statistics always satisfy
`total == recognized + unrecognized + errors`; the three counters are never
altered; the mismatch warning fires exactly when the counters did not sum to the
enumerated total, in which case the total is replaced by the processed count, and
otherwise the statistics are returned unchanged. -/
theorem c7_stats_invariant (stats : RunStats) :
    ((finalize_stats stats).1.total_images =
      (finalize_stats stats).1.recognized + (finalize_stats stats).1.unrecognized +
        (finalize_stats stats).1.errors)
    ∧ (finalize_stats stats).1.recognized = stats.recognized
    ∧ (finalize_stats stats).1.unrecognized = stats.unrecognized
    ∧ (finalize_stats stats).1.errors = stats.errors
    ∧ ((finalize_stats stats).2 = true ↔
        stats.recognized + stats.unrecognized + stats.errors ≠ stats.total_images)
    ∧ ((finalize_stats stats).2 = false → (finalize_stats stats).1 = stats) := by
  unfold finalize_stats
  by_cases h : stats.recognized + stats.unrecognized + stats.errors ≠ stats.total_images
  · rw [if_pos h]
    refine ⟨rfl, rfl, rfl, rfl, ?_, ?_⟩
    · exact ⟨fun _ => h, fun _ => rfl⟩
    · intro habs
      simp at habs
  · rw [if_neg h]
    refine ⟨?_, rfl, rfl, rfl, ?_, fun _ => rfl⟩
    · exact (not_not.mp h).symm
    · constructor
      · intro habs
        simp at habs
      · intro habs
        exact absurd habs h

/-- C9: for every damaged cache-file state — missing, truncated, or
corrupt/unreadable — `load_cache` returns the default mapping (the empty cache for
the `None` default), and the inline cache loading of `process_image_batch` yields
the empty cache; both are total functions, so no damaged cache file can fail the
run. -/
theorem c9_cache_degrades_to_default (default : Option Cache) :
    load_cache CacheFileState.missing default = default.getD []
    ∧ load_cache CacheFileState.truncated default = default.getD []
    ∧ load_cache CacheFileState.corrupt default = default.getD []
    ∧ load_cache CacheFileState.missing none = []
    ∧ load_cache CacheFileState.truncated none = []
    ∧ load_cache CacheFileState.corrupt none = []
    ∧ (∀ ec cds, batch_encoding_cache ec cds CacheFileState.missing = []
      ∧ batch_encoding_cache ec cds CacheFileState.truncated = []
      ∧ batch_encoding_cache ec cds CacheFileState.corrupt = []) := by
  refine ⟨?_, ?_, ?_, ?_, ?_, ?_, ?_⟩
  · cases default <;> rfl
  · cases default <;> rfl
  · cases default <;> rfl
  · rfl
  · rfl
  · rfl
  · intro ec cds
    cases ec <;> cases cds <;> exact ⟨rfl, rfl, rfl⟩

theorem is_image_file_iff (p : String) :
    is_image_file p = true ↔
      (p.toLower.endsWith ".jpg" = true ∨ p.toLower.endsWith ".jpeg" = true ∨
       p.toLower.endsWith ".png" = true ∨ p.toLower.endsWith ".bmp" = true ∨
       p.toLower.endsWith ".gif" = true) := by
  unfold is_image_file
  simp [Bool.or_eq_true]

theorem mem_list_image_files (entries : List (String × Bool)) (p : String) :
    p ∈ list_image_files entries ↔
      ((p, true) ∈ entries ∧ is_image_file p = true) := by
  unfold list_image_files
  rw [List.mem_filterMap]
  constructor
  · rintro ⟨⟨f1, f2⟩, hfe, hif⟩
    dsimp only at hif
    by_cases hc : (f2 && is_image_file f1) = true
    · rw [if_pos hc] at hif
      have hp : f1 = p := by simpa using hif
      subst hp
      simp only [Bool.and_eq_true] at hc
      exact ⟨hc.1 ▸ hfe, hc.2⟩
    · rw [if_neg hc] at hif
      exact absurd hif (by simp)
  · rintro ⟨hfe, him⟩
    refine ⟨(p, true), hfe, ?_⟩
    dsimp only
    rw [him]
    rfl

/-- C10: the enumerator selects a directory entry iff it is a regular file whose
lowercased name ends in `.jpg`, `.jpeg`, `.png`, `.bmp` or `.gif`; entries failing
the whitelist are absent from the enumerated list, and the initial statistics count
exactly the enumerated files (total = length of the list, all outcome counters
zero), so skipped files contribute no per-file outcome. -/
theorem c10_image_extension_whitelist (entries : List (String × Bool)) (p : String) :
    (p ∈ list_image_files entries ↔
      ((p, true) ∈ entries ∧
        (p.toLower.endsWith ".jpg" = true ∨ p.toLower.endsWith ".jpeg" = true ∨
         p.toLower.endsWith ".png" = true ∨ p.toLower.endsWith ".bmp" = true ∨
         p.toLower.endsWith ".gif" = true)))
    ∧ (is_image_file p = false → p ∉ list_image_files entries)
    ∧ (init_stats (list_image_files entries)).total_images =
        (list_image_files entries).length
    ∧ (init_stats (list_image_files entries)).recognized = 0
    ∧ (init_stats (list_image_files entries)).unrecognized = 0
    ∧ (init_stats (list_image_files entries)).errors = 0 := by
  refine ⟨?_, ?_, rfl, rfl, rfl, rfl⟩
  · rw [mem_list_image_files]
    constructor
    · rintro ⟨h1, h2⟩
      exact ⟨h1, (is_image_file_iff p).mp h2⟩
    · rintro ⟨h1, h2⟩
      exact ⟨h1, (is_image_file_iff p).mpr h2⟩
  · intro hno hmem
    have := ((mem_list_image_files entries p).mp hmem).2
    rw [hno] at this
    exact Bool.false_ne_true this

/-- Witness for C10 at a concrete directory listing: `a.JPG` (regular file,
uppercase extension) is selected, `b.txt` and the directory entry `c.png` are not. -/
theorem c10_image_extension_whitelist_witness :
    ("a.JPG" ∈ list_image_files [("a.JPG", true), ("b.txt", true), ("c.png", false)] ↔
      (("a.JPG", true) ∈ [("a.JPG", true), ("b.txt", true), ("c.png", false)] ∧
        (("a.JPG").toLower.endsWith ".jpg" = true ∨
         ("a.JPG").toLower.endsWith ".jpeg" = true ∨
         ("a.JPG").toLower.endsWith ".png" = true ∨
         ("a.JPG").toLower.endsWith ".bmp" = true ∨
         ("a.JPG").toLower.endsWith ".gif" = true)))
    ∧ (is_image_file "a.JPG" = false →
        "a.JPG" ∉ list_image_files [("a.JPG", true), ("b.txt", true), ("c.png", false)])
    ∧ (init_stats (list_image_files
        [("a.JPG", true), ("b.txt", true), ("c.png", false)])).total_images =
      (list_image_files [("a.JPG", true), ("b.txt", true), ("c.png", false)]).length
    ∧ (init_stats (list_image_files
        [("a.JPG", true), ("b.txt", true), ("c.png", false)])).recognized = 0
    ∧ (init_stats (list_image_files
        [("a.JPG", true), ("b.txt", true), ("c.png", false)])).unrecognized = 0
    ∧ (init_stats (list_image_files
        [("a.JPG", true), ("b.txt", true), ("c.png", false)])).errors = 0 :=
  c10_image_extension_whitelist [("a.JPG", true), ("b.txt", true), ("c.png", false)] "a.JPG"

theorem unique_name_loop_spec (ex : String → Bool) (dir base ext ts : String) :
    ∀ (fuel counter : Nat),
      (∃ n, counter ≤ n ∧
        unique_name_loop ex dir base ext ts counter fuel =
          render_path dir (base ++ "_" ++ toString n ++ ext) ∧
        ex (unique_name_loop ex dir base ext ts counter fuel) = false)
      ∨ unique_name_loop ex dir base ext ts counter fuel =
          render_path dir (base ++ "_" ++ ts ++ ext) := by
  intro fuel
  induction fuel with
  | zero =>
    intro counter
    unfold unique_name_loop
    by_cases hex : ex (render_path dir (base ++ "_" ++ toString counter ++ ext)) = false
    · left
      refine ⟨counter, le_refl _, ?_, ?_⟩
      · rw [if_pos hex]
      · rw [if_pos hex]
        exact hex
    · right
      rw [if_neg hex]
  | succ f ih =>
    intro counter
    unfold unique_name_loop
    by_cases hex : ex (render_path dir (base ++ "_" ++ toString counter ++ ext)) = false
    · left
      refine ⟨counter, le_refl _, ?_, ?_⟩
      · rw [if_pos hex]
      · rw [if_pos hex]
        exact hex
    · rw [if_neg hex]
      rcases ih (counter + 1) with ⟨n, h1, h2, h3⟩ | h
      · left
        exact ⟨n, by omega, h2, h3⟩
      · right
        exact h

/-- C8 counterexample: requesting `d/x_99999.jpg` in a filesystem where that path,
the single candidate `d/x_100000.jpg` the loop can try before the 10000-attempt
guard trips, and the timestamp fallback `d/x_TS.jpg` all exist makes the engine
return the fallback path even though it already exists — so a placement at that
name overwrites an existing file, refuting the claimed unconditional
collision-freedom. -/
theorem c8_counterexample :
    generate_unique_filename exW8 "TS" "d" "x_99999" ".jpg" = "d/x_TS.jpg"
    ∧ exW8 (generate_unique_filename exW8 "TS" "d" "x_99999" ".jpg") = true := by
  refine ⟨by decide, by decide⟩

/-- C8 amended: a non-existing requested path is returned as is; otherwise every
result is either a currently non-existing path or the timestamp-fallback name
(taken only after the suffix counter passes 10000 and returned without any
existence check, so it alone may collide); when the base name already carries a
`_<digits>` suffix the numeric search strips it and resumes from its successor
(never stacking suffixes); and a second placement whose filesystem sees the first
result either takes the timestamp fallback or resolves to a different path. -/
theorem c8_collision_safe_naming (ex : String → Bool) (ts dir base ext : String) :
    (ex (render_path dir (base ++ ext)) = false →
      generate_unique_filename ex ts dir base ext = render_path dir (base ++ ext))
    ∧ (ex (generate_unique_filename ex ts dir base ext) = false
      ∨ ∃ b, generate_unique_filename ex ts dir base ext =
          render_path dir (b ++ "_" ++ ts ++ ext))
    ∧ (∀ b n, strip_numeric_suffix base = some (b, n) →
      ex (render_path dir (base ++ ext)) = true →
      ((∃ m, n + 1 ≤ m ∧
          generate_unique_filename ex ts dir base ext =
            render_path dir (b ++ "_" ++ toString m ++ ext) ∧
          ex (generate_unique_filename ex ts dir base ext) = false)
        ∨ generate_unique_filename ex ts dir base ext =
            render_path dir (b ++ "_" ++ ts ++ ext)))
    ∧ (∀ (ex2 : String → Bool) (ts2 dir2 base2 ext2 : String),
      ex2 (generate_unique_filename ex ts dir base ext) = true →
      ((∃ b2, generate_unique_filename ex2 ts2 dir2 base2 ext2 =
          render_path dir2 (b2 ++ "_" ++ ts2 ++ ext2))
        ∨ generate_unique_filename ex2 ts2 dir2 base2 ext2 ≠
            generate_unique_filename ex ts dir base ext)) := by
  have hmain : ∀ (ex' : String → Bool) (ts' dir' base' ext' : String),
      ex' (generate_unique_filename ex' ts' dir' base' ext') = false
      ∨ ∃ b, generate_unique_filename ex' ts' dir' base' ext' =
          render_path dir' (b ++ "_" ++ ts' ++ ext') := by
    intro ex' ts' dir' base' ext'
    unfold generate_unique_filename
    by_cases hex : ex' (render_path dir' (base' ++ ext')) = false
    · rw [if_pos hex]
      exact Or.inl hex
    · rw [if_neg hex]
      cases hstrip : strip_numeric_suffix base' with
      | none =>
        rcases unique_name_loop_spec ex' dir' base' ext' ts' (10000 - 1) 1 with
          ⟨n, _, _, h3⟩ | h
        · exact Or.inl h3
        · exact Or.inr ⟨base', h⟩
      | some bn =>
        rcases unique_name_loop_spec ex' dir' bn.1 ext' ts' (10000 - (bn.2 + 1))
            (bn.2 + 1) with ⟨n, _, _, h3⟩ | h
        · exact Or.inl h3
        · exact Or.inr ⟨bn.1, h⟩
  refine ⟨?_, hmain ex ts dir base ext, ?_, ?_⟩
  · intro hex
    unfold generate_unique_filename
    rw [if_pos hex]
  · intro b n hstrip hex
    unfold generate_unique_filename
    rw [if_neg (by rw [hex]; simp), hstrip]
    rcases unique_name_loop_spec ex dir b ext ts (10000 - (n + 1)) (n + 1) with
      ⟨m, h1, h2, h3⟩ | h
    · exact Or.inl ⟨m, h1, h2, h3⟩
    · exact Or.inr h
  · intro ex2 ts2 dir2 base2 ext2 hseen
    rcases hmain ex2 ts2 dir2 base2 ext2 with h | h
    · right
      intro heq
      rw [heq, hseen] at h
      simp at h
    · exact Or.inl h

/-- Witness for the amended C8 theorem: requested destination `d/a.jpg` exists, so
does `d/a_1.jpg`; the search must return the free name `d/a_2.jpg`, satisfying
every conjunct at this concrete input. -/
theorem c8_collision_safe_naming_witness :
    (exW8b (render_path "d" ("a" ++ ".jpg")) = false →
      generate_unique_filename exW8b "TS" "d" "a" ".jpg" = render_path "d" ("a" ++ ".jpg"))
    ∧ (exW8b (generate_unique_filename exW8b "TS" "d" "a" ".jpg") = false
      ∨ ∃ b, generate_unique_filename exW8b "TS" "d" "a" ".jpg" =
          render_path "d" (b ++ "_" ++ "TS" ++ ".jpg"))
    ∧ (∀ b n, strip_numeric_suffix "a" = some (b, n) →
      exW8b (render_path "d" ("a" ++ ".jpg")) = true →
      ((∃ m, n + 1 ≤ m ∧
          generate_unique_filename exW8b "TS" "d" "a" ".jpg" =
            render_path "d" (b ++ "_" ++ toString m ++ ".jpg") ∧
          exW8b (generate_unique_filename exW8b "TS" "d" "a" ".jpg") = false)
        ∨ generate_unique_filename exW8b "TS" "d" "a" ".jpg" =
            render_path "d" (b ++ "_" ++ "TS" ++ ".jpg")))
    ∧ (∀ (ex2 : String → Bool) (ts2 dir2 base2 ext2 : String),
      ex2 (generate_unique_filename exW8b "TS" "d" "a" ".jpg") = true →
      ((∃ b2, generate_unique_filename ex2 ts2 dir2 base2 ext2 =
          render_path dir2 (b2 ++ "_" ++ ts2 ++ ext2))
        ∨ generate_unique_filename ex2 ts2 dir2 base2 ext2 ≠
            generate_unique_filename exW8b "TS" "d" "a" ".jpg")) :=
  c8_collision_safe_naming exW8b "TS" "d" "a" ".jpg"

/-- Witness for C7 at concrete statistics with a deliberate mismatch (total `1`,
all counters `0`): after reconciliation the invariant holds and the warning fired. -/
theorem c7_stats_invariant_witness :
    ((finalize_stats statsW).1.total_images =
      (finalize_stats statsW).1.recognized + (finalize_stats statsW).1.unrecognized +
        (finalize_stats statsW).1.errors)
    ∧ (finalize_stats statsW).1.recognized = statsW.recognized
    ∧ (finalize_stats statsW).1.unrecognized = statsW.unrecognized
    ∧ (finalize_stats statsW).1.errors = statsW.errors
    ∧ ((finalize_stats statsW).2 = true ↔
        statsW.recognized + statsW.unrecognized + statsW.errors ≠ statsW.total_images)
    ∧ ((finalize_stats statsW).2 = false → (finalize_stats statsW).1 = statsW) :=
  c7_stats_invariant statsW

/-- Witness for C9 with the `None` default every caller passes. -/
theorem c9_cache_degrades_to_default_witness :
    load_cache CacheFileState.missing none = Option.getD none []
    ∧ load_cache CacheFileState.truncated none = Option.getD none []
    ∧ load_cache CacheFileState.corrupt none = Option.getD none []
    ∧ load_cache CacheFileState.missing none = []
    ∧ load_cache CacheFileState.truncated none = []
    ∧ load_cache CacheFileState.corrupt none = []
    ∧ (∀ ec cds, batch_encoding_cache ec cds CacheFileState.missing = []
      ∧ batch_encoding_cache ec cds CacheFileState.truncated = []
      ∧ batch_encoding_cache ec cds CacheFileState.corrupt = []) :=
  c9_cache_degrades_to_default none

end FaceSorter
